import Mathlib

/-!
Verification of the AutoDocs cog (src/autodocs/autodocs.py).

The embedding models the privilege-aware document assembly pipeline of
`AutoDocs.generate_readme`, the packaging/delivery logic of `AutoDocs.makedocs`,
and the companion lookup helpers (`get_command_info`, `get_command_names`,
`get_cog_info`, `get_cog_list`).

The command Formatter (`CustomCmdFmt` from `.formatter`, not part of the given
source tree) is an external collaborator here: following the spec's Formatter
contract `render(command, options) -> text | null`, each command carries its
render result as data (`doc : Option String`).  The Formatter-only options of
`generate_readme` (`prefix`, `replace_botname`, `extended_info`,
`embedding_style`) influence only that render result and are therefore folded
into the `doc` field rather than passed separately.
-/

namespace AutoDocs

/-- `redbot.core.commands.requires.PrivilegeLevel`: an IntEnum with
NONE = 1, MOD = 2, ADMIN = 3, GUILD_OWNER = 4, BOT_OWNER = 5;
comparisons in the source use the underlying integer values. -/
inductive PrivilegeLevel where
  | NONE
  | MOD
  | ADMIN
  | GUILD_OWNER
  | BOT_OWNER
deriving DecidableEq, Repr

/-- The IntEnum value of a privilege level (used for `<` / `>` comparisons). -/
def PrivilegeLevel.val : PrivilegeLevel → Nat
  | .NONE => 1
  | .MOD => 2
  | .ADMIN => 3
  | .GUILD_OWNER => 4
  | .BOT_OWNER => 5

/-- `PrivilegeLevel(level).name.lower()` as used when building file names. -/
def PrivilegeLevel.pyNameLower : PrivilegeLevel → String
  | .NONE => "none"
  | .MOD => "mod"
  | .ADMIN => "admin"
  | .GUILD_OWNER => "guild_owner"
  | .BOT_OWNER => "bot_owner"

/-- One command as traversed by `cog.walk_app_commands()` / `cog.walk_commands()`.
`privilege_level` models `c.perms.privilege_level` of the wrapped formatter
(`Option.none` when `c.perms` is absent or carries no privilege level).
`doc` is the Formatter's render result `c.get_doc()`:
`Option.none` for Python `None`, `some ""` for an empty string (both are falsy
in the source's `if not doc` checks). -/
structure Command where
  qualified_name : String
  name : String
  hidden : Bool
  privilege_level : Option PrivilegeLevel
  doc : Option String
deriving DecidableEq, Repr

/-- One cog: qualified name, `cog.help` (None or the raw help string), and the
two traversal sequences (app commands first, then regular commands). -/
structure Cog where
  qualified_name : String
  help : Option String
  app_commands : List Command
  commands : List Command
deriving DecidableEq, Repr

/-- `AutoDocs.determine_command_privilege_level`:
returns `c.perms.privilege_level` when present (all enum members are truthy,
their values starting at 1), otherwise `PrivilegeLevel.NONE`. -/
def determine_command_privilege_level (c : Command) : PrivilegeLevel :=
  match c.privilege_level with
  | some l => l
  | none => PrivilegeLevel.NONE

/-- The `privilege_map` dict of `generate_readme`, as a lookup:
`Option.none` models a `KeyError` on any string outside the five keys. -/
def privilege_map : String → Option PrivilegeLevel
  | "none" => some PrivilegeLevel.NONE
  | "mod" => some PrivilegeLevel.MOD
  | "admin" => some PrivilegeLevel.ADMIN
  | "guildowner" => some PrivilegeLevel.GUILD_OWNER
  | "botowner" => some PrivilegeLevel.BOT_OWNER
  | _ => none

/-- Python's `sub in s` substring test on strings, as used in the
exclusion-propagation check `if i in cmd.qualified_name`. -/
def strIn (sub s : String) : Bool :=
  (List.range (s.length + 1)).any (fun k => sub.data.isPrefixOf (s.data.drop k))

/-- `a` occurs as a contiguous substring of `b` (propositional form). -/
def strContains (a b : String) : Prop :=
  ∃ s t : List Char, b.data = s ++ a.data ++ t

/-- `a` is a prefix of `b` (propositional form of Python `b.startswith(a)`). -/
def strStartsWith (a b : String) : Prop :=
  ∃ t : List Char, b.data = a.data ++ t

/-- The `docs_by_level` dict is an insertion-ordered association list. -/
def docs_init : List (PrivilegeLevel × String) :=
  [(PrivilegeLevel.NONE, ""), (PrivilegeLevel.MOD, ""), (PrivilegeLevel.ADMIN, ""),
   (PrivilegeLevel.GUILD_OWNER, ""), (PrivilegeLevel.BOT_OWNER, "")]

/-- `docs_by_level[level] += s` (the level is always one of the five keys). -/
def updateLevel (level : PrivilegeLevel) (s : String) :
    List (PrivilegeLevel × String) → List (PrivilegeLevel × String)
  | [] => []
  | p :: rest =>
    if p.1 = level then (p.1, p.2 ++ s) :: rest else p :: updateLevel level s rest

/-- `docs_by_level[level]` read access. -/
def lookupLevel (level : PrivilegeLevel) :
    List (PrivilegeLevel × String) → Option String
  | [] => none
  | p :: rest => if p.1 = level then some p.2 else lookupLevel level rest

/-- Python `str.strip()`: drop leading and trailing whitespace. -/
def pyStrip (s : String) : String :=
  String.mk (((s.data.dropWhile Char.isWhitespace).reverse.dropWhile
    Char.isWhitespace).reverse)

/-- `cog.help.strip() if cog.help else ""`. -/
def cog_help_str (cog : Cog) : String :=
  match cog.help with
  | some h => pyStrip h
  | none => ""

/-- The tier-independent header prepended to every tier's blob:
`f"{cog_name}\n{'=' * len(cog_name)}\n\n{cog_help}\n\n"`. -/
def help_header (cog_name cog_help : String) : String :=
  cog_name ++ "\n" ++ String.mk (List.replicate cog_name.length '=') ++ "\n\n"
    ++ cog_help ++ "\n\n"

/-- `if cog_help and include_help: for level in docs_by_level: ... += header`. -/
def add_help (cog_name cog_help : String) (include_help : Bool)
    (d : List (PrivilegeLevel × String)) : List (PrivilegeLevel × String) :=
  if cog_help != "" && include_help then
    d.map (fun p => (p.1, p.2 ++ help_header cog_name cog_help))
  else d

/-- `csv_name = f"{c.name} command for {cog_name} cog"`. -/
def csv_label (name cog_name : String) : String :=
  name ++ " command for " ++ cog_name ++ " cog"

/-- Accumulated state of the app-command loop: the `docs_by_level` mapping and
the `rows` list (pairs `[csv_name, f"{csv_name}\n{doc}"]`). -/
structure AsmState where
  docs : List (PrivilegeLevel × String)
  rows : List (String × String)
deriving DecidableEq, Repr

/-- One iteration of the `for cmd in cog.walk_app_commands()` loop. -/
def app_step (min_level max_level : PrivilegeLevel) (cog_name : String)
    (st : AsmState) (cmd : Command) : AsmState :=
  if (determine_command_privilege_level cmd).val < min_level.val
      || max_level.val < (determine_command_privilege_level cmd).val then st
  else
    match cmd.doc with
    | none => st
    | some doc =>
      if doc = "" then st
      else
        { docs := updateLevel (determine_command_privilege_level cmd) (doc ++ "\n\n") st.docs,
          rows := st.rows ++
            [(csv_label cmd.name cog_name, csv_label cmd.name cog_name ++ "\n" ++ doc)] }

/-- Accumulated state of the regular-command loop: `docs_by_level`, `rows`,
and the `ignored` list of qualified names whose render was `None`. -/
structure RegState where
  docs : List (PrivilegeLevel × String)
  rows : List (String × String)
  ignored : List String
deriving DecidableEq, Repr

/-- One iteration of the `for cmd in cog.walk_commands()` loop:
hidden filter, privilege-band filter, `None`-render bookkeeping in `ignored`,
the substring-based skip check against `ignored`, then the append. -/
def reg_step (include_hidden : Bool) (min_level max_level : PrivilegeLevel)
    (cog_name : String) (st : RegState) (cmd : Command) : RegState :=
  if cmd.hidden && !include_hidden then st
  else
    if (determine_command_privilege_level cmd).val < min_level.val
        || max_level.val < (determine_command_privilege_level cmd).val then st
    else
      match cmd.doc with
      | none => { st with ignored := st.ignored ++ [cmd.qualified_name] }
      | some doc =>
        if doc = "" then st
        else if st.ignored.any (fun i => strIn i cmd.qualified_name) then st
        else
          { docs := updateLevel (determine_command_privilege_level cmd) (doc ++ "\n\n") st.docs,
            rows := st.rows ++
              [(csv_label cmd.name cog_name, csv_label cmd.name cog_name ++ "\n" ++ doc)],
            ignored := st.ignored }

/-- `AutoDocs.generate_readme`: resolves the two privilege strings through
`privilege_map` (`Option.none` models the `KeyError` on an unknown string, in
particular on the declared default `"user"`), initializes the five-key
`docs_by_level`, optionally prepends the cog help header to every tier, runs
the app-command pass and then the regular-command pass, and returns the
document set together with the rows of the `pandas.DataFrame`. -/
def generate_readme (cog : Cog) (include_hidden : Bool) (include_help : Bool)
    (max_privilege_level : String) (min_privilage_level : String := "user") :
    Option (List (PrivilegeLevel × String) × List (String × String)) :=
  match privilege_map max_privilege_level, privilege_map min_privilage_level with
  | some max_level, some min_level =>
    let cog_name := cog.qualified_name
    let d0 := add_help cog_name (cog_help_str cog) include_help docs_init
    let st1 := cog.app_commands.foldl (app_step min_level max_level cog_name)
      { docs := d0, rows := [] }
    let st2 := cog.commands.foldl (reg_step include_hidden min_level max_level cog_name)
      { docs := st1.docs, rows := st1.rows, ignored := [] }
    some (st2.docs, st2.rows)
  | _, _ => none

/-- A named command as returned by `bot.get_command(command_name)` (host
framework registry): plain name, owning cog's qualified name, and the
Formatter's render result for it in the `get_command_info` context
(`CustomCmdFmt(self.bot, command, prefixes[0], True, False, level, True)`),
again carried as data since the Formatter is external. -/
structure NamedCommand where
  name : String
  cog_name : String
  doc : Option String
deriving DecidableEq, Repr

/-- The host bot, restricted to what the source consults: the ordered mapping
of loaded cogs (`self.bot.cogs`) and the global command registry. -/
structure Bot where
  cogs : List Cog
  bot_commands : List NamedCommand
deriving DecidableEq, Repr

/-- `self.bot.get_cog(name)`: case-sensitive lookup among loaded cogs. -/
def get_cog (bot : Bot) (name : String) : Option Cog :=
  bot.cogs.find? (fun c => c.qualified_name == name)

/-- `self.bot.get_command(name)`: lookup in the global command registry. -/
def get_command (bot : Bot) (name : String) : Option NamedCommand :=
  bot.bot_commands.find? (fun c => c.name == name)

/-- One file written during packaging: entry/file name and textual content. -/
structure Artifact where
  name : String
  content : String
deriving DecidableEq, Repr

/-- One `ctx.send(...)` call: either a bare text message or a text with an
attached file. -/
inductive SendEvent where
  | message (txt : String)
  | delivered (txt : String) (file : Artifact)
deriving DecidableEq, Repr

/-- The per-tier files built in the single-cog branch of `makedocs`:
`buffer.name = f"{level_name}/cog_{cog.qualified_name}.rst"` with the tier's
blob as content — one file per entry of `docs_by_level`, with no emptiness
check and no csv handling in this branch. -/
def single_cog_files (cog_qual : String)
    (docs_by_level : List (PrivilegeLevel × String)) : List Artifact :=
  docs_by_level.map (fun p =>
    { name := p.1.pyNameLower ++ "/cog_" ++ cog_qual ++ ".rst", content := p.2 })

/-- The `ctx.send` calls of the single-cog branch: for each tier, either
`ctx.send("File size too large!")` when `file.__sizeof__()` exceeds
`ctx.guild.filesize_limit`, or `ctx.send(txt, file=file)`.  `sizeof` abstracts
the external `discord.File.__sizeof__` as a function of the file's content. -/
def single_cog_events (sizeof : String → Nat) (filesize_limit : Nat)
    (cog_qual : String) (docs_by_level : List (PrivilegeLevel × String)) :
    List SendEvent :=
  docs_by_level.map (fun p =>
    let file : Artifact :=
      { name := p.1.pyNameLower ++ "/cog_" ++ cog_qual ++ ".rst", content := p.2 }
    let txt := "Here are your docs for " ++ cog_qual ++ " in the "
      ++ p.1.pyNameLower ++ " level!"
    if sizeof p.2 > filesize_limit then SendEvent.message "File size too large!"
    else SendEvent.delivered txt file)

/-- The archive entries written for one cog in the `all` branch: one
`f"{folder_name}/{level_name}/cog_{...}.rst"` entry per tier, and, when
`csv_export` is set, one csv entry whose name reuses the `filename` variable
left over from the last loop iteration with `.rst` replaced by `.csv`.
`to_csv` abstracts the external `pandas.DataFrame.to_csv` serialization of the
rows. -/
def cog_arc_entries (to_csv : List (String × String) → String) (csv_export : Bool)
    (cog_qual : String) (docs_by_level : List (PrivilegeLevel × String))
    (rows : List (String × String)) : List Artifact :=
  let rst := docs_by_level.map (fun p =>
    { name := "StarCogs/" ++ p.1.pyNameLower ++ "/cog_" ++ cog_qual ++ ".rst",
      content := p.2 : Artifact })
  if csv_export then
    match (rst.map (fun a => a.name)).getLast? with
    | some last => rst ++ [{ name := last.replace ".rst" ".csv", content := to_csv rows }]
    | none => rst
  else rst

/-- The `for cog in self.bot.cogs` loop of the `all` branch: cogs whose
qualified name is on the `IGNORE` list (defined in the external
`.formatter` module, hence a parameter here) are skipped; every other cog is
assembled with `generate_readme` and its entries are written in order. -/
def all_cog_loop (ignore : List String) (to_csv : List (String × String) → String)
    (csv_export : Bool) (include_hidden : Bool) (include_help : Bool)
    (max_privilege_level min_privilage_level : String) :
    List Cog → Option (List Artifact)
  | [] => some []
  | cog :: rest =>
    if ignore.contains cog.qualified_name then
      all_cog_loop ignore to_csv csv_export include_hidden include_help
        max_privilege_level min_privilage_level rest
    else
      match generate_readme cog include_hidden include_help
          max_privilege_level min_privilage_level with
      | none => none
      | some (docs_by_level, rows) =>
        match all_cog_loop ignore to_csv csv_export include_hidden include_help
            max_privilege_level min_privilage_level rest with
        | none => none
        | some acc =>
          some (cog_arc_entries to_csv csv_export cog.qualified_name docs_by_level rows
            ++ acc)

/-- The full `all` branch of `makedocs`: the archive starts with the
`StarCogs/` folder entry, followed by every non-ignored cog's entries. -/
def makedocs_all (ignore : List String) (to_csv : List (String × String) → String)
    (csv_export : Bool) (include_hidden : Bool) (include_help : Bool)
    (max_privilege_level min_privilage_level : String) (cogs : List Cog) :
    Option (List Artifact) :=
  (all_cog_loop ignore to_csv csv_export include_hidden include_help
      max_privilege_level min_privilage_level cogs).map
    (fun entries => { name := "StarCogs/", content := "" } :: entries)

/-- `AutoDocs.makedocs`, reduced to its observable output: the artifacts built
and the `ctx.send` events performed.  In the `all` branch the archive is
assembled (and a `discord.File` plus caption prepared) but the source performs
no `ctx.send` afterwards, so the event list is empty.  In the single-cog
branch a missing cog yields the plain-text not-found message; otherwise
`generate_readme` runs (its `csv_export` argument lands on the
`embedding_style` parameter, a Formatter-only option) and each tier's file is
size-checked and sent. -/
def makedocs (bot : Bot) (ignore : List String)
    (to_csv : List (String × String) → String) (sizeof : String → Nat)
    (filesize_limit : Nat) (cog_name : String) (csv_export : Bool)
    (include_hidden : Bool) (include_help : Bool)
    (max_privilege_level min_privilage_level : String) :
    Option (List Artifact × List SendEvent) :=
  if cog_name = "all" then
    match makedocs_all ignore to_csv csv_export include_hidden include_help
        max_privilege_level min_privilage_level bot.cogs with
    | none => none
    | some entries => some (entries, [])
  else
    match get_cog bot cog_name with
    | none => some ([], [SendEvent.message "I could not find that cog, maybe it is not loaded?"])
    | some cog =>
      match generate_readme cog include_hidden include_help
          max_privilege_level min_privilage_level with
      | none => none
      | some (docs_by_level, _rows) =>
        some (single_cog_files cog.qualified_name docs_by_level,
          single_cog_events sizeof filesize_limit cog.qualified_name docs_by_level)

/-- `AutoDocs.get_command_info`, with the host-side privilege resolution and
the Formatter call abstracted into the registry entry's `doc` field: a missing
command yields the plain-text not-found message, a falsy render the
not-permitted message, otherwise the formatted answer. -/
def get_command_info (bot : Bot) (command_name : String) : String :=
  match get_command bot command_name with
  | none => "Command not found, check valid commands for this cog first"
  | some command =>
    match command.doc with
    | none => "The user you are chatting with does not have the required permissions to use that command"
    | some d =>
      if d = "" then
        "The user you are chatting with does not have the required permissions to use that command"
      else "Cog name: " ++ command.cog_name ++ "\nCommand:\n" ++ d

/-- `AutoDocs.get_command_names`. -/
def get_command_names (bot : Bot) (cog_name : String) : String :=
  match get_cog bot cog_name with
  | none => "Could not find that cog, check loaded cogs first"
  | some cog =>
    let names := cog.app_commands.map (fun i => i.qualified_name)
      ++ cog.commands.map (fun i => i.qualified_name)
    "Available commands for the " ++ cog_name ++ " cog:\n"
      ++ String.intercalate "\n" names

/-- `AutoDocs.get_cog_info` (`if desc := cog.help:` is falsy for `None` and
for the empty string). -/
def get_cog_info (bot : Bot) (cog_name : String) : String :=
  match get_cog bot cog_name with
  | none => "Could not find that cog, check loaded cogs first"
  | some cog =>
    match cog.help with
    | none => "This cog has no description"
    | some desc =>
      if desc = "" then "This cog has no description"
      else "Description of the " ++ cog_name ++ " cog: " ++ desc

/-- `AutoDocs.get_cog_list`. -/
def get_cog_list (bot : Bot) : String :=
  "Currently loaded cogs:\n"
    ++ String.intercalate "\n" (bot.cogs.map (fun c => c.qualified_name))

/-! ### Basic lemmas about the association-list document set -/

theorem updateLevel_keys (l : PrivilegeLevel) (s : String)
    (d : List (PrivilegeLevel × String)) :
    (updateLevel l s d).map Prod.fst = d.map Prod.fst := by
  induction d with
  | nil => rfl
  | cons p rest ih =>
    unfold updateLevel
    split <;> simp [ih]

theorem lookupLevel_update_self (l : PrivilegeLevel) (s : String)
    (d : List (PrivilegeLevel × String)) (b : String)
    (h : lookupLevel l d = some b) :
    lookupLevel l (updateLevel l s d) = some (b ++ s) := by
  induction d with
  | nil => simp [lookupLevel] at h
  | cons p rest ih =>
    by_cases hp : p.1 = l
    · simp [lookupLevel, hp] at h
      simp [updateLevel, lookupLevel, hp, h]
    · simp [lookupLevel, hp] at h
      simp [updateLevel, lookupLevel, hp, ih h]

theorem lookupLevel_update_ne (k l : PrivilegeLevel) (hne : k ≠ l) (s : String)
    (d : List (PrivilegeLevel × String)) :
    lookupLevel k (updateLevel l s d) = lookupLevel k d := by
  induction d with
  | nil => rfl
  | cons p rest ih =>
    by_cases hp : p.1 = l
    · simp [updateLevel, lookupLevel, hp, hne, Ne.symm hne, ih]
    · by_cases hk : p.1 = k
      · simp [updateLevel, lookupLevel, hp, hk, hne, Ne.symm hne]
      · simp [updateLevel, lookupLevel, hp, hk, ih]

theorem lookupLevel_isSome_of_mem (l : PrivilegeLevel)
    (d : List (PrivilegeLevel × String)) (h : l ∈ d.map Prod.fst) :
    ∃ b, lookupLevel l d = some b := by
  induction d with
  | nil => simp at h
  | cons p rest ih =>
    by_cases hp : p.1 = l
    · exact ⟨p.2, by simp [lookupLevel, hp]⟩
    · have : l ∈ rest.map Prod.fst := by
        simp at h
        rcases h with h | h
        · exact absurd h.symm hp
        · simpa using h
      exact (ih this).imp (fun b hb => by simp [lookupLevel, hp, hb])

/-! ### Lemmas about the substring machinery -/

theorem isPrefixOf_append_self (l t : List Char) : l.isPrefixOf (l ++ t) = true := by
  induction l with
  | nil => cases t <;> rfl
  | cons a as ih => simp [List.isPrefixOf, ih]

theorem data_append (a b : String) : (a ++ b).data = a.data ++ b.data := rfl

theorem strIn_of_startsWith (i name : String) (h : strStartsWith i name) :
    strIn i name = true := by
  obtain ⟨t, ht⟩ := h
  unfold strIn
  rw [List.any_eq_true]
  refine ⟨0, List.mem_range.mpr (Nat.succ_pos _), ?_⟩
  rw [List.drop_zero, ht]
  exact isPrefixOf_append_self _ _

theorem strContains_append_right (a b c : String) (h : strContains a b) :
    strContains a (b ++ c) := by
  obtain ⟨s, t, ht⟩ := h
  exact ⟨s, t ++ c.data, by rw [data_append, ht]; simp⟩

theorem strContains_append_left (a b : String) : strContains a (b ++ a) :=
  ⟨b.data, [], by rw [data_append]; simp⟩

/-! ### A generic fold-invariant principle -/

theorem foldl_invariant {α σ : Type} (f : σ → α → σ) (P : σ → Prop)
    (h : ∀ s a, P s → P (f s a)) :
    ∀ (l : List α) (s : σ), P s → P (l.foldl f s) := by
  intro l
  induction l with
  | nil => exact fun s hs => hs
  | cons a rest ih => exact fun s hs => ih (f s a) (h s a hs)

/-! ### Lemmas about the privilege string lookup -/

theorem privilege_map_isSome (s : String) :
    (privilege_map s).isSome = true ↔
      s ∈ ["none", "mod", "admin", "guildowner", "botowner"] := by
  unfold privilege_map
  split <;> simp_all

theorem generate_readme_isSome_iff (cog : Cog) (ih ihp : Bool) (maxs mins : String) :
    (generate_readme cog ih ihp maxs mins).isSome = true ↔
      ((privilege_map maxs).isSome = true ∧ (privilege_map mins).isSome = true) := by
  unfold generate_readme
  cases privilege_map maxs <;> cases privilege_map mins <;> simp

/-! ### Concrete scenario data -/

/-- A visible command `ping` with a description, no declared privilege. -/
def pingCmd : Command :=
  { qualified_name := "ping", name := "ping", hidden := false,
    privilege_level := some PrivilegeLevel.NONE, doc := some "Ping the bot" }

/-- A bot-owner-only command `shutdown` with a description. -/
def shutdownCmd : Command :=
  { qualified_name := "shutdown", name := "shutdown", hidden := false,
    privilege_level := some PrivilegeLevel.BOT_OWNER, doc := some "Shut down" }

/-- The cog of the spec's Scenario 1: `ping` and `shutdown`, no help text. -/
def testCog : Cog :=
  { qualified_name := "TestCog", help := none, app_commands := [],
    commands := [pingCmd, shutdownCmd] }

/-- An app command whose render result is `None`. -/
def fooCmd : Command :=
  { qualified_name := "foo", name := "foo", hidden := false,
    privilege_level := some PrivilegeLevel.NONE, doc := none }

/-- An app command whose qualified name begins with `foo` and which renders. -/
def fooBarCmd : Command :=
  { qualified_name := "foo bar", name := "bar", hidden := false,
    privilege_level := some PrivilegeLevel.NONE, doc := some "Bar doc" }

/-- A cog whose app-command pass traverses `foo` (null render) before
`foo bar` (non-null render). -/
def c2cog : Cog :=
  { qualified_name := "C2Cog", help := none, app_commands := [fooCmd, fooBarCmd],
    commands := [] }

/-- A cog with help text and no commands. -/
def helpCog : Cog :=
  { qualified_name := "HelpCog", help := some "Helpful cog", app_commands := [],
    commands := [] }

/-! ### C1 -/

/-- C1: a command's rendered text is added to the DocumentSet, and its row to
the TabularRow sequence, only when its classified tier lies inside the
inclusion band — an out-of-band command leaves the loop state of either pass
untouched — and the ping/shutdown cog assembled with band [NONE, MOD] yields
`ping`'s text under NONE, an empty BOT_OWNER blob, and no `shutdown` row. -/
theorem band_filter_excludes_outside_tiers
    (min_level max_level : PrivilegeLevel) (cog_name : String)
    (st : AsmState) (rst : RegState) (include_hidden : Bool) (cmd : Command)
    (h : (determine_command_privilege_level cmd).val < min_level.val ∨
         max_level.val < (determine_command_privilege_level cmd).val) :
    app_step min_level max_level cog_name st cmd = st ∧
    reg_step include_hidden min_level max_level cog_name rst cmd = rst ∧
    generate_readme testCog false false "mod" "none" =
      some ([(PrivilegeLevel.NONE, "Ping the bot\n\n"), (PrivilegeLevel.MOD, ""),
             (PrivilegeLevel.ADMIN, ""), (PrivilegeLevel.GUILD_OWNER, ""),
             (PrivilegeLevel.BOT_OWNER, "")],
            [("ping command for TestCog cog", "ping command for TestCog cog\nPing the bot")]) := by
  have hb : ((determine_command_privilege_level cmd).val < min_level.val
      || max_level.val < (determine_command_privilege_level cmd).val) = true := by
    rcases h with h | h <;> simp [h]
  refine ⟨?_, ?_, by decide⟩
  · unfold app_step
    rw [if_pos hb]
  · unfold reg_step
    by_cases hh : (cmd.hidden && !include_hidden) = true
    · rw [if_pos hh]
    · rw [if_neg hh, if_pos hb]

/-- Witness for C1: the out-of-band `shutdown` command leaves a concrete
regular-pass state unchanged. -/
theorem band_filter_excludes_outside_tiers_witness :
    reg_step false PrivilegeLevel.NONE PrivilegeLevel.MOD "TestCog"
      { docs := docs_init, rows := [], ignored := [] } shutdownCmd =
      { docs := docs_init, rows := [], ignored := [] } :=
  (band_filter_excludes_outside_tiers PrivilegeLevel.NONE PrivilegeLevel.MOD "TestCog"
    { docs := docs_init, rows := [] }
    { docs := docs_init, rows := [], ignored := [] } false shutdownCmd
    (Or.inr (by decide))).2.1

/-! ### C9 -/

/-- C9: the assembler is a deterministic pure function of the cog, the options
and the privilege band — identical inputs give byte-identical document sets
and row sequences; the embedding exhibits no hidden mutable state. -/
theorem generate_readme_deterministic
    (c1 c2 : Cog) (ih1 ih2 ihp1 ihp2 : Bool) (mx1 mx2 mn1 mn2 : String)
    (hc : c1 = c2) (hih : ih1 = ih2) (hihp : ihp1 = ihp2)
    (hmx : mx1 = mx2) (hmn : mn1 = mn2) :
    generate_readme c1 ih1 ihp1 mx1 mn1 = generate_readme c2 ih2 ihp2 mx2 mn2 := by
  rw [hc, hih, hihp, hmx, hmn]

/-- Witness for C9 at a concrete cog and concrete options. -/
theorem generate_readme_deterministic_witness :
    generate_readme testCog false false "mod" "none" =
      generate_readme testCog false false "mod" "none" :=
  generate_readme_deterministic testCog testCog false false false false
    "mod" "mod" "none" "none" rfl rfl rfl rfl rfl

/-! ### C10 -/

/-- C10: the two privilege strings go through the fixed five-entry
`privilege_map`; assembly proceeds exactly when both strings are among
`none`, `mod`, `admin`, `guildowner`, `botowner`, and the declared default
`"user"` of `min_privilage_level` is outside the map, so a call relying on
the default fails at the lookup before any document is assembled. -/
theorem privilege_map_totality_and_default
    (cog : Cog) (ih ihp : Bool) (maxs mins : String) :
    ((generate_readme cog ih ihp maxs mins).isSome = true ↔
      (maxs ∈ ["none", "mod", "admin", "guildowner", "botowner"] ∧
       mins ∈ ["none", "mod", "admin", "guildowner", "botowner"])) ∧
    generate_readme cog ih ihp maxs = none := by
  constructor
  · rw [generate_readme_isSome_iff, privilege_map_isSome, privilege_map_isSome]
  · show generate_readme cog ih ihp maxs "user" = none
    unfold generate_readme
    cases privilege_map maxs <;> rfl

/-! ### C2 -/

/-- C2 counterexample: in the app-command pass there is no exclusion list —
`foo` renders `None`, yet the later app command `foo bar`, whose qualified
name begins with `foo`, still lands in the DocumentSet and in the TabularRow
sequence, contrary to the claim that exclusion propagation holds across both
traversal passes. -/
theorem app_pass_no_exclusion_propagation :
    strStartsWith "foo" "foo bar" ∧
    generate_readme c2cog true false "botowner" "none" =
      some ([(PrivilegeLevel.NONE, "Bar doc\n\n"), (PrivilegeLevel.MOD, ""),
             (PrivilegeLevel.ADMIN, ""), (PrivilegeLevel.GUILD_OWNER, ""),
             (PrivilegeLevel.BOT_OWNER, "")],
            [("bar command for C2Cog cog", "bar command for C2Cog cog\nBar doc")]) :=
  ⟨⟨" bar".data, rfl⟩, by decide⟩

/-- C2 amended: only the general-command pass keeps an exclusion list.  There,
a command that passes the hidden and band filters and renders `None` has its
qualified name recorded; a later general command whose qualified name contains
an already-excluded name as a substring — in particular one that begins with
it — contributes nothing to the DocumentSet or the TabularRow sequence; and
the exclusion list only ever grows along the pass. -/
theorem exclusion_propagation_general_pass :
    (∀ (include_hidden : Bool) (mn mx : PrivilegeLevel) (cog_name : String)
       (st : RegState) (cmd : Command),
       (cmd.hidden && !include_hidden) = false →
       ((determine_command_privilege_level cmd).val < mn.val
         || mx.val < (determine_command_privilege_level cmd).val) = false →
       cmd.doc = none →
       cmd.qualified_name ∈ (reg_step include_hidden mn mx cog_name st cmd).ignored) ∧
    (∀ (include_hidden : Bool) (mn mx : PrivilegeLevel) (cog_name : String)
       (st : RegState) (cmd : Command) (i : String),
       i ∈ st.ignored → strIn i cmd.qualified_name = true →
       (reg_step include_hidden mn mx cog_name st cmd).docs = st.docs ∧
       (reg_step include_hidden mn mx cog_name st cmd).rows = st.rows) ∧
    (∀ (include_hidden : Bool) (mn mx : PrivilegeLevel) (cog_name : String)
       (st : RegState) (cmd : Command) (i : String),
       i ∈ st.ignored → i ∈ (reg_step include_hidden mn mx cog_name st cmd).ignored) ∧
    (∀ i name : String, strStartsWith i name → strIn i name = true) := by
  refine ⟨?_, ?_, ?_, strIn_of_startsWith⟩
  · intro include_hidden mn mx cog_name st cmd h1 h2 h3
    unfold reg_step
    rw [if_neg (by simp [h1]), if_neg (by simp [h2]), h3]
    simp
  · intro include_hidden mn mx cog_name st cmd i himem hstr
    unfold reg_step
    by_cases h1 : (cmd.hidden && !include_hidden) = true
    · rw [if_pos h1]; exact ⟨rfl, rfl⟩
    rw [if_neg h1]
    by_cases h2 : ((determine_command_privilege_level cmd).val < mn.val
        || mx.val < (determine_command_privilege_level cmd).val) = true
    · rw [if_pos h2]; exact ⟨rfl, rfl⟩
    rw [if_neg h2]
    cases hd : cmd.doc with
    | none => exact ⟨rfl, rfl⟩
    | some doc =>
      dsimp only
      by_cases h3 : doc = ""
      · rw [if_pos h3]; exact ⟨rfl, rfl⟩
      rw [if_neg h3, if_pos (List.any_eq_true.mpr ⟨i, himem, hstr⟩)]
      exact ⟨rfl, rfl⟩
  · intro include_hidden mn mx cog_name st cmd i himem
    unfold reg_step
    by_cases h1 : (cmd.hidden && !include_hidden) = true
    · rw [if_pos h1]; exact himem
    rw [if_neg h1]
    by_cases h2 : ((determine_command_privilege_level cmd).val < mn.val
        || mx.val < (determine_command_privilege_level cmd).val) = true
    · rw [if_pos h2]; exact himem
    rw [if_neg h2]
    cases hd : cmd.doc with
    | none => exact List.mem_append_left _ himem
    | some doc =>
      dsimp only
      by_cases h3 : doc = ""
      · rw [if_pos h3]; exact himem
      rw [if_neg h3]
      by_cases h4 : (st.ignored.any (fun i => strIn i cmd.qualified_name)) = true
      · rw [if_pos h4]; exact himem
      · rw [if_neg h4]; exact himem

/-- Witness for C2's amended claim: the null-rendering `foo` is recorded in
the exclusion list of a concrete regular-pass state. -/
theorem exclusion_propagation_general_pass_witness :
    "foo" ∈ (reg_step true PrivilegeLevel.NONE PrivilegeLevel.BOT_OWNER "C2Cog"
      { docs := docs_init, rows := [], ignored := [] } fooCmd).ignored :=
  exclusion_propagation_general_pass.1 true PrivilegeLevel.NONE
    PrivilegeLevel.BOT_OWNER "C2Cog"
    { docs := docs_init, rows := [], ignored := [] } fooCmd rfl rfl rfl

/-! ### C3 -/

/-- C3 counterexample: with cog help present and "include help" set, the tier
BOT_OWNER lies outside the requested band [NONE, NONE] and yet its blob is the
help header, not the empty text blob the claim requires for every option
combination. -/
theorem out_of_band_tier_not_empty_with_help :
    generate_readme helpCog false true "none" "none" =
      some ([(PrivilegeLevel.NONE, "HelpCog\n=======\n\nHelpful cog\n\n"),
             (PrivilegeLevel.MOD, "HelpCog\n=======\n\nHelpful cog\n\n"),
             (PrivilegeLevel.ADMIN, "HelpCog\n=======\n\nHelpful cog\n\n"),
             (PrivilegeLevel.GUILD_OWNER, "HelpCog\n=======\n\nHelpful cog\n\n"),
             (PrivilegeLevel.BOT_OWNER, "HelpCog\n=======\n\nHelpful cog\n\n")], []) ∧
    (PrivilegeLevel.BOT_OWNER.val < PrivilegeLevel.NONE.val
      || PrivilegeLevel.NONE.val < PrivilegeLevel.BOT_OWNER.val) = true ∧
    "HelpCog\n=======\n\nHelpful cog\n\n" ≠ "" :=
  ⟨by decide, by decide, by decide⟩

theorem lookupLevel_docs_init (t : PrivilegeLevel) :
    lookupLevel t docs_init = some "" := by
  cases t <;> rfl

theorem lookupLevel_docs_init_help (t : PrivilegeLevel) (h : String) :
    lookupLevel t (docs_init.map (fun p => (p.1, p.2 ++ h))) = some h := by
  cases t <;> rfl

/-- An app-command step never touches the keys of `docs_by_level`, and never
touches the blob of a tier outside the inclusion band. -/
theorem app_step_out_of_band_untouched
    (mn mx : PrivilegeLevel) (cog_name : String) (t : PrivilegeLevel)
    (ht : (t.val < mn.val || mx.val < t.val) = true)
    (st : AsmState) (cmd : Command) :
    (app_step mn mx cog_name st cmd).docs.map Prod.fst = st.docs.map Prod.fst ∧
    lookupLevel t (app_step mn mx cog_name st cmd).docs = lookupLevel t st.docs := by
  unfold app_step
  by_cases hb : ((determine_command_privilege_level cmd).val < mn.val
      || mx.val < (determine_command_privilege_level cmd).val) = true
  · rw [if_pos hb]; exact ⟨rfl, rfl⟩
  rw [if_neg hb]
  cases hd : cmd.doc with
  | none => exact ⟨rfl, rfl⟩
  | some doc =>
    dsimp only
    by_cases h3 : doc = ""
    · rw [if_pos h3]; exact ⟨rfl, rfl⟩
    rw [if_neg h3]
    have hne : t ≠ determine_command_privilege_level cmd := by
      intro he
      rw [← he] at hb
      exact hb ht
    exact ⟨updateLevel_keys _ _ _, lookupLevel_update_ne t _ hne _ _⟩

/-- A general-command step never touches the keys of `docs_by_level`, and
never touches the blob of a tier outside the inclusion band. -/
theorem reg_step_out_of_band_untouched
    (include_hidden : Bool) (mn mx : PrivilegeLevel) (cog_name : String)
    (t : PrivilegeLevel) (ht : (t.val < mn.val || mx.val < t.val) = true)
    (st : RegState) (cmd : Command) :
    (reg_step include_hidden mn mx cog_name st cmd).docs.map Prod.fst = st.docs.map Prod.fst ∧
    lookupLevel t (reg_step include_hidden mn mx cog_name st cmd).docs = lookupLevel t st.docs := by
  unfold reg_step
  by_cases h1 : (cmd.hidden && !include_hidden) = true
  · rw [if_pos h1]; exact ⟨rfl, rfl⟩
  rw [if_neg h1]
  by_cases hb : ((determine_command_privilege_level cmd).val < mn.val
      || mx.val < (determine_command_privilege_level cmd).val) = true
  · rw [if_pos hb]; exact ⟨rfl, rfl⟩
  rw [if_neg hb]
  cases hd : cmd.doc with
  | none => exact ⟨rfl, rfl⟩
  | some doc =>
    dsimp only
    by_cases h3 : doc = ""
    · rw [if_pos h3]; exact ⟨rfl, rfl⟩
    rw [if_neg h3]
    by_cases h4 : (st.ignored.any (fun i => strIn i cmd.qualified_name)) = true
    · rw [if_pos h4]; exact ⟨rfl, rfl⟩
    rw [if_neg h4]
    have hne : t ≠ determine_command_privilege_level cmd := by
      intro he
      rw [← he] at hb
      exact hb ht
    exact ⟨updateLevel_keys _ _ _, lookupLevel_update_ne t _ hne _ _⟩

/-- C3 amended: every assembly's DocumentSet has exactly the five enumeration
tiers as keys, in order; a tier outside the requested band receives no command
text — its blob equals the initial value, which is the empty string except
that when cog help exists and "include help" is set it is the
tier-independent help header instead. -/
theorem docset_five_keys_out_of_band_initial
    (cog : Cog) (include_hidden include_help : Bool) (maxs mins : String)
    (mx mn : PrivilegeLevel) (docs : List (PrivilegeLevel × String))
    (rows : List (String × String)) (t : PrivilegeLevel)
    (hmax : privilege_map maxs = some mx) (hmin : privilege_map mins = some mn)
    (hgen : generate_readme cog include_hidden include_help maxs mins = some (docs, rows))
    (ht : (t.val < mn.val || mx.val < t.val) = true) :
    docs.map Prod.fst = [PrivilegeLevel.NONE, PrivilegeLevel.MOD, PrivilegeLevel.ADMIN,
      PrivilegeLevel.GUILD_OWNER, PrivilegeLevel.BOT_OWNER] ∧
    lookupLevel t docs =
      some (if (cog_help_str cog != "") && include_help
            then help_header cog.qualified_name (cog_help_str cog) else "") := by
  unfold generate_readme at hgen
  rw [hmax, hmin] at hgen
  simp only [Option.some.injEq, Prod.mk.injEq] at hgen
  obtain ⟨hdocs, -⟩ := hgen
  subst hdocs
  have hinit : (add_help cog.qualified_name (cog_help_str cog) include_help docs_init).map Prod.fst
        = [PrivilegeLevel.NONE, PrivilegeLevel.MOD, PrivilegeLevel.ADMIN,
           PrivilegeLevel.GUILD_OWNER, PrivilegeLevel.BOT_OWNER] ∧
      lookupLevel t (add_help cog.qualified_name (cog_help_str cog) include_help docs_init)
        = some (if (cog_help_str cog != "") && include_help
                then help_header cog.qualified_name (cog_help_str cog) else "") := by
    unfold add_help
    by_cases hc : ((cog_help_str cog != "") && include_help) = true
    · rw [if_pos hc, if_pos hc]
      exact ⟨rfl, lookupLevel_docs_init_help t _⟩
    · rw [if_neg hc, if_neg hc]
      exact ⟨rfl, lookupLevel_docs_init t⟩
  have happ := foldl_invariant
    (app_step mn mx cog.qualified_name)
    (fun st : AsmState => st.docs.map Prod.fst = [PrivilegeLevel.NONE, PrivilegeLevel.MOD,
        PrivilegeLevel.ADMIN, PrivilegeLevel.GUILD_OWNER, PrivilegeLevel.BOT_OWNER] ∧
      lookupLevel t st.docs
        = some (if (cog_help_str cog != "") && include_help
                then help_header cog.qualified_name (cog_help_str cog) else ""))
    (fun st cmd hP =>
      ⟨(app_step_out_of_band_untouched mn mx cog.qualified_name t ht st cmd).1.trans hP.1,
       (app_step_out_of_band_untouched mn mx cog.qualified_name t ht st cmd).2.trans hP.2⟩)
    cog.app_commands
    { docs := add_help cog.qualified_name (cog_help_str cog) include_help docs_init,
      rows := [] }
    hinit
  exact foldl_invariant
    (reg_step include_hidden mn mx cog.qualified_name)
    (fun st : RegState => st.docs.map Prod.fst = [PrivilegeLevel.NONE, PrivilegeLevel.MOD,
        PrivilegeLevel.ADMIN, PrivilegeLevel.GUILD_OWNER, PrivilegeLevel.BOT_OWNER] ∧
      lookupLevel t st.docs
        = some (if (cog_help_str cog != "") && include_help
                then help_header cog.qualified_name (cog_help_str cog) else ""))
    (fun st cmd hP =>
      ⟨(reg_step_out_of_band_untouched include_hidden mn mx cog.qualified_name t ht st cmd).1.trans hP.1,
       (reg_step_out_of_band_untouched include_hidden mn mx cog.qualified_name t ht st cmd).2.trans hP.2⟩)
    cog.commands
    { docs := (cog.app_commands.foldl (app_step mn mx cog.qualified_name)
        { docs := add_help cog.qualified_name (cog_help_str cog) include_help docs_init,
          rows := [] }).docs,
      rows := (cog.app_commands.foldl (app_step mn mx cog.qualified_name)
        { docs := add_help cog.qualified_name (cog_help_str cog) include_help docs_init,
          rows := [] }).rows,
      ignored := [] }
    ⟨happ.1, happ.2⟩

/-- Witness for C3's amended claim: for the ping/shutdown cog with band
[NONE, MOD], the out-of-band BOT_OWNER blob of the concrete run equals the
initial empty blob. -/
theorem docset_five_keys_out_of_band_initial_witness :
    [(PrivilegeLevel.NONE, "Ping the bot\n\n"), (PrivilegeLevel.MOD, ""),
     (PrivilegeLevel.ADMIN, ""), (PrivilegeLevel.GUILD_OWNER, ""),
     (PrivilegeLevel.BOT_OWNER, "")].map
       (Prod.fst (α := PrivilegeLevel) (β := String)) =
      [PrivilegeLevel.NONE, PrivilegeLevel.MOD, PrivilegeLevel.ADMIN,
       PrivilegeLevel.GUILD_OWNER, PrivilegeLevel.BOT_OWNER] ∧
    lookupLevel PrivilegeLevel.BOT_OWNER
      [(PrivilegeLevel.NONE, "Ping the bot\n\n"), (PrivilegeLevel.MOD, ""),
       (PrivilegeLevel.ADMIN, ""), (PrivilegeLevel.GUILD_OWNER, ""),
       (PrivilegeLevel.BOT_OWNER, "")] =
      some (if (cog_help_str testCog != "") && false
            then help_header testCog.qualified_name (cog_help_str testCog) else "") :=
  docset_five_keys_out_of_band_initial testCog false false "mod" "none"
    PrivilegeLevel.MOD PrivilegeLevel.NONE
    [(PrivilegeLevel.NONE, "Ping the bot\n\n"), (PrivilegeLevel.MOD, ""),
     (PrivilegeLevel.ADMIN, ""), (PrivilegeLevel.GUILD_OWNER, ""),
     (PrivilegeLevel.BOT_OWNER, "")]
    [("ping command for TestCog cog", "ping command for TestCog cog\nPing the bot")]
    PrivilegeLevel.BOT_OWNER
    rfl rfl (by decide) (by decide)

/-! ### C7 -/

/-- The five tiers in enumeration order. -/
def allLevels : List PrivilegeLevel :=
  [PrivilegeLevel.NONE, PrivilegeLevel.MOD, PrivilegeLevel.ADMIN,
   PrivilegeLevel.GUILD_OWNER, PrivilegeLevel.BOT_OWNER]

theorem mem_allLevels (l : PrivilegeLevel) : l ∈ allLevels := by
  cases l <;> decide

theorem add_help_keys (cn ch : String) (ihp : Bool) :
    (add_help cn ch ihp docs_init).map Prod.fst = allLevels := by
  unfold add_help
  split <;> rfl

/-- A fold-invariant principle that also hands the step the membership of the
current element in the traversed list. -/
theorem foldl_invariant_mem {α σ : Type} (f : σ → α → σ) (P : σ → Prop) :
    ∀ l : List α, (∀ s a, a ∈ l → P s → P (f s a)) →
      ∀ s, P s → P (l.foldl f s) := by
  intro l
  induction l with
  | nil => exact fun _ s hs => hs
  | cons a rest ihl =>
    intro h s hs
    exact ihl (fun s' a' ha' hP => h s' a' (List.mem_cons_of_mem a ha') hP)
      (f s a) (h s a (List.mem_cons_self a rest) hs)

/-- A tabular row produced by one of the traversed commands: some command
`cmd` drawn from `pool` renders to `doc`, the row's label is synthesized from
`cmd`'s name, the row's text is the label plus `doc`, and `doc` (with its
blank-line separator) occurs inside the blob of `cmd`'s classified privilege
tier. -/
def row_from_command (pool : Command → Prop) (cog_name : String)
    (docs : List (PrivilegeLevel × String)) (r : String × String) : Prop :=
  ∃ (cmd : Command) (doc blob : String),
    pool cmd ∧ cmd.doc = some doc ∧
    r.1 = csv_label cmd.name cog_name ∧
    r.2 = r.1 ++ "\n" ++ doc ∧
    lookupLevel (determine_command_privilege_level cmd) docs = some blob ∧
    strContains (doc ++ "\n\n") blob

theorem row_from_command_mono_update (pool : Command → Prop) (cog_name : String)
    (l : PrivilegeLevel) (s : String) (docs : List (PrivilegeLevel × String))
    (r : String × String) (h : row_from_command pool cog_name docs r) :
    row_from_command pool cog_name (updateLevel l s docs) r := by
  obtain ⟨cmd, doc, blob, hp, hd, h1, h2, h3, h4⟩ := h
  by_cases he : determine_command_privilege_level cmd = l
  · subst he
    exact ⟨cmd, doc, blob ++ s, hp, hd, h1, h2,
      lookupLevel_update_self _ s docs blob h3, strContains_append_right _ _ _ h4⟩
  · exact ⟨cmd, doc, blob, hp, hd, h1, h2,
      by rw [lookupLevel_update_ne _ l he s docs]; exact h3, h4⟩

theorem row_from_command_mono_pool (pool pool' : Command → Prop)
    (cog_name : String) (docs : List (PrivilegeLevel × String))
    (r : String × String) (hsub : ∀ c, pool c → pool' c)
    (h : row_from_command pool cog_name docs r) :
    row_from_command pool' cog_name docs r := by
  obtain ⟨cmd, doc, blob, hp, hd, h1, h2, h3, h4⟩ := h
  exact ⟨cmd, doc, blob, hsub cmd hp, hd, h1, h2, h3, h4⟩

/-- An app-command step preserves the keys and the row-round-trip invariant;
the row it may append stems from the traversed command itself, at that
command's classified tier. -/
theorem app_step_roundtrip (mn mx : PrivilegeLevel) (cog_name : String)
    (pool : Command → Prop) (st : AsmState) (cmd : Command) (hcmd : pool cmd)
    (hP : st.docs.map Prod.fst = allLevels ∧
      ∀ r ∈ st.rows, row_from_command pool cog_name st.docs r) :
    (app_step mn mx cog_name st cmd).docs.map Prod.fst = allLevels ∧
    ∀ r ∈ (app_step mn mx cog_name st cmd).rows,
      row_from_command pool cog_name (app_step mn mx cog_name st cmd).docs r := by
  unfold app_step
  by_cases hb : ((determine_command_privilege_level cmd).val < mn.val
      || mx.val < (determine_command_privilege_level cmd).val) = true
  · rw [if_pos hb]; exact hP
  rw [if_neg hb]
  cases hd : cmd.doc with
  | none => exact hP
  | some doc =>
    dsimp only
    by_cases h3 : doc = ""
    · rw [if_pos h3]; exact hP
    rw [if_neg h3]
    refine ⟨(updateLevel_keys _ _ _).trans hP.1, ?_⟩
    intro r hr
    rw [List.mem_append] at hr
    rcases hr with hr | hr
    · exact row_from_command_mono_update pool cog_name _ _ _ _ (hP.2 r hr)
    · rw [List.mem_singleton] at hr
      subst hr
      obtain ⟨blob, hblob⟩ := lookupLevel_isSome_of_mem
        (determine_command_privilege_level cmd) st.docs
        (by rw [hP.1]; exact mem_allLevels _)
      exact ⟨cmd, doc, blob ++ (doc ++ "\n\n"), hcmd, hd, rfl, rfl,
        lookupLevel_update_self _ _ _ _ hblob, strContains_append_left _ _⟩

/-- A general-command step preserves the keys and the row-round-trip
invariant; the row it may append stems from the traversed command itself, at
that command's classified tier. -/
theorem reg_step_roundtrip (include_hidden : Bool) (mn mx : PrivilegeLevel)
    (cog_name : String) (pool : Command → Prop) (st : RegState) (cmd : Command)
    (hcmd : pool cmd)
    (hP : st.docs.map Prod.fst = allLevels ∧
      ∀ r ∈ st.rows, row_from_command pool cog_name st.docs r) :
    (reg_step include_hidden mn mx cog_name st cmd).docs.map Prod.fst = allLevels ∧
    ∀ r ∈ (reg_step include_hidden mn mx cog_name st cmd).rows,
      row_from_command pool cog_name (reg_step include_hidden mn mx cog_name st cmd).docs r := by
  unfold reg_step
  by_cases h1 : (cmd.hidden && !include_hidden) = true
  · rw [if_pos h1]; exact hP
  rw [if_neg h1]
  by_cases hb : ((determine_command_privilege_level cmd).val < mn.val
      || mx.val < (determine_command_privilege_level cmd).val) = true
  · rw [if_pos hb]; exact hP
  rw [if_neg hb]
  cases hd : cmd.doc with
  | none => exact hP
  | some doc =>
    dsimp only
    by_cases h3 : doc = ""
    · rw [if_pos h3]; exact hP
    rw [if_neg h3]
    by_cases h4 : (st.ignored.any (fun i => strIn i cmd.qualified_name)) = true
    · rw [if_pos h4]; exact hP
    rw [if_neg h4]
    refine ⟨(updateLevel_keys _ _ _).trans hP.1, ?_⟩
    intro r hr
    rw [List.mem_append] at hr
    rcases hr with hr | hr
    · exact row_from_command_mono_update pool cog_name _ _ _ _ (hP.2 r hr)
    · rw [List.mem_singleton] at hr
      subst hr
      obtain ⟨blob, hblob⟩ := lookupLevel_isSome_of_mem
        (determine_command_privilege_level cmd) st.docs
        (by rw [hP.1]; exact mem_allLevels _)
      exact ⟨cmd, doc, blob ++ (doc ++ "\n\n"), hcmd, hd, rfl, rfl,
        lookupLevel_update_self _ _ _ _ hblob, strContains_append_left _ _⟩

/-- C7: every row of the TabularRow sequence stems from one of the traversed
commands — the row's label is synthesized from that command's name, its text
is the label line followed by that command's rendered doc, and that rendered
doc (with the blank-line separator that was appended to the blob) occurs
verbatim inside the text blob of that command's classified tier. -/
theorem rows_roundtrip_in_docs
    (cog : Cog) (include_hidden include_help : Bool) (maxs mins : String)
    (docs : List (PrivilegeLevel × String)) (rows : List (String × String))
    (hgen : generate_readme cog include_hidden include_help maxs mins = some (docs, rows)) :
    ∀ r ∈ rows, ∃ (cmd : Command) (doc blob : String),
      (cmd ∈ cog.app_commands ∨ cmd ∈ cog.commands) ∧
      cmd.doc = some doc ∧
      r.1 = csv_label cmd.name cog.qualified_name ∧
      r.2 = r.1 ++ "\n" ++ doc ∧
      lookupLevel (determine_command_privilege_level cmd) docs = some blob ∧
      strContains (doc ++ "\n\n") blob := by
  unfold generate_readme at hgen
  cases hmax : privilege_map maxs with
  | none => rw [hmax] at hgen; simp at hgen
  | some mx =>
    cases hmin : privilege_map mins with
    | none => rw [hmax, hmin] at hgen; simp at hgen
    | some mn =>
      rw [hmax, hmin] at hgen
      simp only [Option.some.injEq, Prod.mk.injEq] at hgen
      obtain ⟨hdocs, hrows⟩ := hgen
      subst hdocs
      subst hrows
      have happ := foldl_invariant_mem
        (app_step mn mx cog.qualified_name)
        (fun st : AsmState => st.docs.map Prod.fst = allLevels ∧
          ∀ r ∈ st.rows, row_from_command (fun c => c ∈ cog.app_commands)
            cog.qualified_name st.docs r)
        cog.app_commands
        (fun st a ha hP => app_step_roundtrip mn mx cog.qualified_name
          (fun c => c ∈ cog.app_commands) st a ha hP)
        { docs := add_help cog.qualified_name (cog_help_str cog) include_help docs_init,
          rows := [] }
        ⟨add_help_keys _ _ _, by intro r hr; simp at hr⟩
      have happ2 : (cog.app_commands.foldl (app_step mn mx cog.qualified_name)
            { docs := add_help cog.qualified_name (cog_help_str cog) include_help docs_init,
              rows := [] }).docs.map Prod.fst = allLevels ∧
          ∀ r ∈ (cog.app_commands.foldl (app_step mn mx cog.qualified_name)
            { docs := add_help cog.qualified_name (cog_help_str cog) include_help docs_init,
              rows := [] }).rows,
            row_from_command (fun c => c ∈ cog.app_commands ∨ c ∈ cog.commands)
              cog.qualified_name
              (cog.app_commands.foldl (app_step mn mx cog.qualified_name)
                { docs := add_help cog.qualified_name (cog_help_str cog) include_help docs_init,
                  rows := [] }).docs r :=
        ⟨happ.1, fun r hr => row_from_command_mono_pool _ _ _ _ r
          (fun c hc => Or.inl hc) (happ.2 r hr)⟩
      have hreg := foldl_invariant_mem
        (reg_step include_hidden mn mx cog.qualified_name)
        (fun st : RegState => st.docs.map Prod.fst = allLevels ∧
          ∀ r ∈ st.rows, row_from_command
            (fun c => c ∈ cog.app_commands ∨ c ∈ cog.commands)
            cog.qualified_name st.docs r)
        cog.commands
        (fun st a ha hP => reg_step_roundtrip include_hidden mn mx cog.qualified_name
          (fun c => c ∈ cog.app_commands ∨ c ∈ cog.commands) st a (Or.inr ha) hP)
        { docs := (cog.app_commands.foldl (app_step mn mx cog.qualified_name)
            { docs := add_help cog.qualified_name (cog_help_str cog) include_help docs_init,
              rows := [] }).docs,
          rows := (cog.app_commands.foldl (app_step mn mx cog.qualified_name)
            { docs := add_help cog.qualified_name (cog_help_str cog) include_help docs_init,
              rows := [] }).rows,
          ignored := [] }
        ⟨happ2.1, happ2.2⟩
      intro r hr
      obtain ⟨cmd, doc, blob, hp, hd, h1, h2, h3, h4⟩ := hreg.2 r hr
      exact ⟨cmd, doc, blob, hp, hd, h1, h2, h3, h4⟩

/-- Witness for C7: the `ping` row of the concrete Scenario-1 run stems from a
traversed command whose classified tier's blob reproduces its doc. -/
theorem rows_roundtrip_in_docs_witness :
    ∃ (cmd : Command) (doc blob : String),
      (cmd ∈ testCog.app_commands ∨ cmd ∈ testCog.commands) ∧
      cmd.doc = some doc ∧
      (("ping command for TestCog cog", "ping command for TestCog cog\nPing the bot") :
        String × String).1 = csv_label cmd.name testCog.qualified_name ∧
      (("ping command for TestCog cog", "ping command for TestCog cog\nPing the bot") :
        String × String).2 =
        (("ping command for TestCog cog", "ping command for TestCog cog\nPing the bot") :
          String × String).1 ++ "\n" ++ doc ∧
      lookupLevel (determine_command_privilege_level cmd)
        [(PrivilegeLevel.NONE, "Ping the bot\n\n"), (PrivilegeLevel.MOD, ""),
         (PrivilegeLevel.ADMIN, ""), (PrivilegeLevel.GUILD_OWNER, ""),
         (PrivilegeLevel.BOT_OWNER, "")] = some blob ∧
      strContains (doc ++ "\n\n") blob :=
  rows_roundtrip_in_docs testCog false false "mod" "none"
    [(PrivilegeLevel.NONE, "Ping the bot\n\n"), (PrivilegeLevel.MOD, ""),
     (PrivilegeLevel.ADMIN, ""), (PrivilegeLevel.GUILD_OWNER, ""),
     (PrivilegeLevel.BOT_OWNER, "")]
    [("ping command for TestCog cog", "ping command for TestCog cog\nPing the bot")]
    (by decide)
    ("ping command for TestCog cog", "ping command for TestCog cog\nPing the bot")
    (by decide)

/-! ### C4 -/

/-- A trivial stand-in for the external `pandas` csv serializer. -/
def to_csv_stub : List (String × String) → String := fun _ => ""

/-- A bot with only the ping/shutdown test cog loaded. -/
def botOne : Bot := { cogs := [testCog], bot_commands := [] }

/-- C4 counterexample: the single-cog run with tabular export requested still
produces one `.rst` artifact for every tier — including the empty MOD, ADMIN,
GUILD_OWNER and BOT_OWNER blobs — and no `.csv` artifact at all. -/
theorem single_cog_empty_blob_and_no_csv :
    makedocs botOne [] to_csv_stub String.length 1000 "TestCog" true false false "mod" "none" =
      some ([{ name := "none/cog_TestCog.rst", content := "Ping the bot\n\n" },
             { name := "mod/cog_TestCog.rst", content := "" },
             { name := "admin/cog_TestCog.rst", content := "" },
             { name := "guild_owner/cog_TestCog.rst", content := "" },
             { name := "bot_owner/cog_TestCog.rst", content := "" }],
            [SendEvent.delivered "Here are your docs for TestCog in the none level!"
               { name := "none/cog_TestCog.rst", content := "Ping the bot\n\n" },
             SendEvent.delivered "Here are your docs for TestCog in the mod level!"
               { name := "mod/cog_TestCog.rst", content := "" },
             SendEvent.delivered "Here are your docs for TestCog in the admin level!"
               { name := "admin/cog_TestCog.rst", content := "" },
             SendEvent.delivered "Here are your docs for TestCog in the guild_owner level!"
               { name := "guild_owner/cog_TestCog.rst", content := "" },
             SendEvent.delivered "Here are your docs for TestCog in the bot_owner level!"
               { name := "bot_owner/cog_TestCog.rst", content := "" }]) ∧
    ([{ name := "none/cog_TestCog.rst", content := "Ping the bot\n\n" },
      { name := "mod/cog_TestCog.rst", content := "" },
      { name := "admin/cog_TestCog.rst", content := "" },
      { name := "guild_owner/cog_TestCog.rst", content := "" },
      { name := "bot_owner/cog_TestCog.rst", content := "" }].all
        (fun a : Artifact => !(strIn ".csv" a.name))) = true :=
  ⟨by decide, by decide⟩

/-- C4 amended: in single-cog mode the code produces one text artifact
`<tier>/cog_<name>.rst` for every tier blob of the DocumentSet, empty or not,
and requesting tabular export produces no tabular artifact — the whole
single-cog output is independent of the `csv_export` flag, which only reaches
the Formatter as its embedding-style option. -/
theorem single_cog_artifact_per_tier
    (q : String) (docs : List (PrivilegeLevel × String))
    (t : PrivilegeLevel) (blob : String) (bot : Bot) (ignore : List String)
    (to_csv : List (String × String) → String) (sizeof : String → Nat)
    (limit : Nat) (cname : String) (ih ihelp : Bool) (maxs mins : String)
    (hmem : (t, blob) ∈ docs) (hnall : cname ≠ "all") :
    (single_cog_files q docs).map (fun a => a.name)
        = docs.map (fun p => p.1.pyNameLower ++ "/cog_" ++ q ++ ".rst") ∧
    Artifact.mk (t.pyNameLower ++ "/cog_" ++ q ++ ".rst") blob ∈ single_cog_files q docs ∧
    makedocs bot ignore to_csv sizeof limit cname true ih ihelp maxs mins
      = makedocs bot ignore to_csv sizeof limit cname false ih ihelp maxs mins := by
  refine ⟨?_, ?_, ?_⟩
  · simp [single_cog_files]
  · exact List.mem_map_of_mem _ hmem
  · unfold makedocs
    rw [if_neg hnall, if_neg hnall]

/-- Witness for C4's amended claim: the empty MOD blob of the Scenario-1 run
still yields its named artifact, and the csv flag changes nothing. -/
theorem single_cog_artifact_per_tier_witness :
    Artifact.mk (PrivilegeLevel.MOD.pyNameLower ++ "/cog_" ++ "TestCog" ++ ".rst") "" ∈
      single_cog_files "TestCog"
        [(PrivilegeLevel.NONE, "Ping the bot\n\n"), (PrivilegeLevel.MOD, ""),
         (PrivilegeLevel.ADMIN, ""), (PrivilegeLevel.GUILD_OWNER, ""),
         (PrivilegeLevel.BOT_OWNER, "")] ∧
    makedocs botOne [] to_csv_stub String.length 1000 "TestCog" true false false "mod" "none"
      = makedocs botOne [] to_csv_stub String.length 1000 "TestCog" false false false "mod" "none" :=
  ⟨(single_cog_artifact_per_tier "TestCog"
      [(PrivilegeLevel.NONE, "Ping the bot\n\n"), (PrivilegeLevel.MOD, ""),
       (PrivilegeLevel.ADMIN, ""), (PrivilegeLevel.GUILD_OWNER, ""),
       (PrivilegeLevel.BOT_OWNER, "")]
      PrivilegeLevel.MOD "" botOne [] to_csv_stub String.length 1000 "TestCog"
      false false "mod" "none" (by decide) (by decide)).2.1,
   (single_cog_artifact_per_tier "TestCog"
      [(PrivilegeLevel.NONE, "Ping the bot\n\n"), (PrivilegeLevel.MOD, ""),
       (PrivilegeLevel.ADMIN, ""), (PrivilegeLevel.GUILD_OWNER, ""),
       (PrivilegeLevel.BOT_OWNER, "")]
      PrivilegeLevel.MOD "" botOne [] to_csv_stub String.length 1000 "TestCog"
      false false "mod" "none" (by decide) (by decide)).2.2⟩

/-! ### C5 -/

/-- A system cog that appears on the ignore list in the scenarios below. -/
def sysCog : Cog :=
  { qualified_name := "SysCog", help := none, app_commands := [], commands := [pingCmd] }

/-- An ordinary cog processed in multi-cog mode. -/
def goodCog : Cog :=
  { qualified_name := "GoodCog", help := none, app_commands := [], commands := [pingCmd] }

/-- A bot loading the ignored system cog and one ordinary cog. -/
def bot2 : Bot := { cogs := [sysCog, goodCog], bot_commands := [] }

/-- C5 counterexample: the multi-cog archive for a run with one ignored system
cog consists of the folder entry and `GoodCog`'s five per-tier artifacts only
— no entry references the ignored cog, but no index document exists either:
no entry is named like an index and no content carries the claimed
installation/license/support/telemetry front-matter sections. -/
theorem all_mode_no_index_document :
    makedocs_all ["SysCog"] to_csv_stub false false false "botowner" "none"
      [sysCog, goodCog] =
      some [{ name := "StarCogs/", content := "" },
            { name := "StarCogs/none/cog_GoodCog.rst", content := "Ping the bot\n\n" },
            { name := "StarCogs/mod/cog_GoodCog.rst", content := "" },
            { name := "StarCogs/admin/cog_GoodCog.rst", content := "" },
            { name := "StarCogs/guild_owner/cog_GoodCog.rst", content := "" },
            { name := "StarCogs/bot_owner/cog_GoodCog.rst", content := "" }] ∧
    ([{ name := "StarCogs/", content := "" },
      { name := "StarCogs/none/cog_GoodCog.rst", content := "Ping the bot\n\n" },
      { name := "StarCogs/mod/cog_GoodCog.rst", content := "" },
      { name := "StarCogs/admin/cog_GoodCog.rst", content := "" },
      { name := "StarCogs/guild_owner/cog_GoodCog.rst", content := "" },
      { name := "StarCogs/bot_owner/cog_GoodCog.rst", content := "" }].all
        (fun a : Artifact => !(strIn "SysCog" a.name) && !(strIn "index" a.name)
          && !(strIn "installation" a.content) && !(strIn "license" a.content)
          && !(strIn "support" a.content) && !(strIn "telemetry" a.content))) = true :=
  ⟨by decide, by decide⟩

theorem all_cog_loop_eq_filtered
    (ignore : List String) (to_csv : List (String × String) → String)
    (csv ih ihelp : Bool) (maxs mins : String)
    (hmax : (privilege_map maxs).isSome = true)
    (hmin : (privilege_map mins).isSome = true) :
    ∀ cogs : List Cog,
      all_cog_loop ignore to_csv csv ih ihelp maxs mins cogs =
        some ((cogs.filter (fun c => !(ignore.contains c.qualified_name))).bind
          (fun c => match generate_readme c ih ihelp maxs mins with
            | some (docs, rows) => cog_arc_entries to_csv csv c.qualified_name docs rows
            | none => [])) := by
  intro cogs
  induction cogs with
  | nil => rfl
  | cons c rest ihc =>
    by_cases hc : ignore.contains c.qualified_name = true
    · rw [List.filter_cons_of_neg (by simpa using hc)]
      unfold all_cog_loop
      rw [if_pos hc, ihc]
    · rw [List.filter_cons_of_pos (by simpa using hc)]
      have hs : (generate_readme c ih ihelp maxs mins).isSome = true :=
        (generate_readme_isSome_iff c ih ihelp maxs mins).mpr ⟨hmax, hmin⟩
      obtain ⟨pr, hpr⟩ := Option.isSome_iff_exists.mp hs
      unfold all_cog_loop
      rw [if_neg hc, hpr, ihc]
      cases pr with
      | mk docs rows => simp [List.cons_bind, hpr]

/-- C5 amended: in multi-cog mode every loaded cog except those whose
qualified name is on the ignore-list is assembled and written into the
archive after the folder entry, in load order; ignored cogs contribute no
artifact; the archive contains no generated index document — its entries are
exactly the folder entry plus the per-cog artifacts. -/
theorem all_mode_ignores_and_entries
    (ignore : List String) (to_csv : List (String × String) → String)
    (csv ih ihelp : Bool) (maxs mins : String) (cogs : List Cog)
    (hmax : (privilege_map maxs).isSome = true)
    (hmin : (privilege_map mins).isSome = true) :
    makedocs_all ignore to_csv csv ih ihelp maxs mins cogs =
      some (Artifact.mk "StarCogs/" "" ::
        (cogs.filter (fun c => !(ignore.contains c.qualified_name))).bind
          (fun c => match generate_readme c ih ihelp maxs mins with
            | some (docs, rows) => cog_arc_entries to_csv csv c.qualified_name docs rows
            | none => [])) := by
  unfold makedocs_all
  rw [all_cog_loop_eq_filtered ignore to_csv csv ih ihelp maxs mins hmax hmin cogs]
  rfl

/-- Witness for C5's amended claim at the concrete two-cog scenario. -/
theorem all_mode_ignores_and_entries_witness :
    makedocs_all ["SysCog"] to_csv_stub false false false "botowner" "none"
      [sysCog, goodCog] =
      some (Artifact.mk "StarCogs/" "" ::
        ([sysCog, goodCog].filter
            (fun c => !((["SysCog"] : List String).contains c.qualified_name))).bind
          (fun c => match generate_readme c false false "botowner" "none" with
            | some (docs, rows) => cog_arc_entries to_csv_stub false c.qualified_name docs rows
            | none => [])) :=
  all_mode_ignores_and_entries ["SysCog"] to_csv_stub false false false
    "botowner" "none" [sysCog, goodCog] rfl rfl

/-! ### C6 -/

/-- C6 counterexample: a multi-cog run under a zero delivery limit produces
artifacts whose content exceeds the limit, yet the invocation emits no event
at all — in particular no size-exceeded message ever accompanies the oversized
archive contents, because the `all` branch performs no size check. -/
theorem all_mode_no_size_report :
    makedocs bot2 ["SysCog"] to_csv_stub String.length 0 "all" false false false
      "botowner" "none" =
      some ([{ name := "StarCogs/", content := "" },
             { name := "StarCogs/none/cog_GoodCog.rst", content := "Ping the bot\n\n" },
             { name := "StarCogs/mod/cog_GoodCog.rst", content := "" },
             { name := "StarCogs/admin/cog_GoodCog.rst", content := "" },
             { name := "StarCogs/guild_owner/cog_GoodCog.rst", content := "" },
             { name := "StarCogs/bot_owner/cog_GoodCog.rst", content := "" }], []) ∧
    String.length "Ping the bot\n\n" > 0 :=
  ⟨by decide, by decide⟩

/-- C6 amended: in single-cog mode, the artifact of any tier whose measured
size exceeds the delivery limit triggers the plain "File size too large!"
message in place of a delivery — that position of the event sequence is the
size-exceeded message and is not a delivery event; the multi-cog branch
performs no size check and sends nothing at all. -/
theorem size_limit_reported_single_cog
    (sizeof : String → Nat) (limit : Nat) (q : String)
    (docs : List (PrivilegeLevel × String)) (i : Nat) (t : PrivilegeLevel)
    (blob : String) (hget : docs[i]? = some (t, blob))
    (hbig : sizeof blob > limit) :
    (single_cog_events sizeof limit q docs)[i]? =
      some (SendEvent.message "File size too large!") ∧
    (∀ (txt : String) (file : Artifact),
      (single_cog_events sizeof limit q docs)[i]? ≠
        some (SendEvent.delivered txt file)) ∧
    (∀ (bot : Bot) (ignore : List String)
       (to_csv : List (String × String) → String) (csv ih ihelp : Bool)
       (maxs mins : String) (res : List Artifact × List SendEvent),
       makedocs bot ignore to_csv sizeof limit "all" csv ih ihelp maxs mins = some res →
       res.2 = []) := by
  have h1 : (single_cog_events sizeof limit q docs)[i]? =
      some (SendEvent.message "File size too large!") := by
    unfold single_cog_events
    rw [List.getElem?_map, hget]
    dsimp only [Option.map_some']
    rw [if_pos hbig]
  refine ⟨h1, ?_, ?_⟩
  · intro txt file hcontra
    rw [h1] at hcontra
    exact SendEvent.noConfusion (Option.some.inj hcontra)
  · intro bot ignore to_csv csv ih ihelp maxs mins res hres
    unfold makedocs at hres
    rw [if_pos rfl] at hres
    cases hall : makedocs_all ignore to_csv csv ih ihelp maxs mins bot.cogs with
    | none => rw [hall] at hres; simp at hres
    | some entries =>
      rw [hall] at hres
      simp only [Option.some.injEq] at hres
      rw [← hres]

/-- Witness for C6's amended claim: under a zero limit, the first tier's
oversized file of the Scenario-1 run is reported as too large. -/
theorem size_limit_reported_single_cog_witness :
    (single_cog_events String.length 0 "TestCog"
      [(PrivilegeLevel.NONE, "Ping the bot\n\n"), (PrivilegeLevel.MOD, ""),
       (PrivilegeLevel.ADMIN, ""), (PrivilegeLevel.GUILD_OWNER, ""),
       (PrivilegeLevel.BOT_OWNER, "")])[0]? =
      some (SendEvent.message "File size too large!") :=
  (size_limit_reported_single_cog String.length 0 "TestCog"
    [(PrivilegeLevel.NONE, "Ping the bot\n\n"), (PrivilegeLevel.MOD, ""),
     (PrivilegeLevel.ADMIN, ""), (PrivilegeLevel.GUILD_OWNER, ""),
     (PrivilegeLevel.BOT_OWNER, "")] 0 PrivilegeLevel.NONE "Ping the bot\n\n"
    rfl (by decide)).1

/-! ### C8 -/

/-- C8: a requested cog or command name matching no loaded one makes every
lookup surface answer with its fixed plain-text "not found" message — the
embedding functions are total String-valued maps, so no fault is raised and
no structured error returned — and `makedocs` likewise answers a single
plain-text message with no artifacts and no delivery. -/
theorem missing_name_plain_text
    (bot : Bot) (name : String)
    (hcog : get_cog bot name = none)
    (hcmd : get_command bot name = none)
    (hall : name ≠ "all") :
    get_command_names bot name = "Could not find that cog, check loaded cogs first" ∧
    get_cog_info bot name = "Could not find that cog, check loaded cogs first" ∧
    get_command_info bot name = "Command not found, check valid commands for this cog first" ∧
    ∀ (ignore : List String) (to_csv : List (String × String) → String)
      (sizeof : String → Nat) (limit : Nat) (csv ih ihelp : Bool)
      (maxs mins : String),
      makedocs bot ignore to_csv sizeof limit name csv ih ihelp maxs mins =
        some ([], [SendEvent.message "I could not find that cog, maybe it is not loaded?"]) := by
  refine ⟨?_, ?_, ?_, ?_⟩
  · unfold get_command_names
    rw [hcog]
  · unfold get_cog_info
    rw [hcog]
  · unfold get_command_info
    rw [hcmd]
  · intro ignore to_csv sizeof limit csv ih ihelp maxs mins
    unfold makedocs
    rw [if_neg hall, hcog]

/-- Witness for C8: a name loaded nowhere gets the plain-text answers. -/
theorem missing_name_plain_text_witness :
    get_command_names { cogs := [], bot_commands := [] } "Nope" =
      "Could not find that cog, check loaded cogs first" ∧
    makedocs { cogs := [], bot_commands := [] } [] to_csv_stub String.length 0 "Nope"
        false false false "botowner" "none" =
      some ([], [SendEvent.message "I could not find that cog, maybe it is not loaded?"]) :=
  ⟨(missing_name_plain_text { cogs := [], bot_commands := [] } "Nope"
      rfl rfl (by decide)).1,
   (missing_name_plain_text { cogs := [], bot_commands := [] } "Nope"
      rfl rfl (by decide)).2.2.2 [] to_csv_stub String.length 0 false false false
      "botowner" "none"⟩

end AutoDocs
